import Mathlib

/-!
Verification development for a real-time chat application consisting of a
relational schema with row-level security (RLS) policies and a browser
front-end.  The data model and every operation below are shallow embeddings
of the source: tables are lists of rows, timestamps are naturals,
identifiers are naturals, and each RLS policy is the boolean predicate
written in the schema's `CREATE POLICY` statements.
-/

/-- Row of the `profiles` table. -/
structure Profile where
  id : Nat
  email : String
  display_name : String
  avatar_url : Option String
  status : String
  created_at : Nat
  updated_at : Nat
deriving DecidableEq

/-- Row of the `contacts` table. -/
structure Contact where
  id : Nat
  user_id : Nat
  contact_id : Nat
  created_at : Nat
deriving DecidableEq

/-- Row of the `conversations` table; `type` is `"private"` or `"group"`. -/
structure Conversation where
  id : Nat
  type : String
  name : Option String
  created_by : Nat
  created_at : Nat
  updated_at : Nat
deriving DecidableEq

/-- Row of the `conversation_participants` table. -/
structure ConversationParticipant where
  id : Nat
  conversation_id : Nat
  user_id : Nat
  joined_at : Nat
  last_read_at : Option Nat
deriving DecidableEq

/-- Row of the `messages` table. -/
structure Message where
  id : Nat
  conversation_id : Nat
  sender_id : Nat
  content : String
  created_at : Nat
  updated_at : Nat
deriving DecidableEq

/-- The database: the five tables of the schema. -/
structure Store where
  profiles : List Profile
  contacts : List Contact
  conversations : List Conversation
  conversation_participants : List ConversationParticipant
  messages : List Message
deriving DecidableEq

def emptyStore : Store :=
  { profiles := [], contacts := [], conversations := [],
    conversation_participants := [], messages := [] }

/-- The `EXISTS (SELECT 1 FROM conversation_participants WHERE
conversation_id = … AND user_id = …)` subquery shared by several policies. -/
def isParticipant (db : Store) (cid uid : Nat) : Bool :=
  db.conversation_participants.any fun p =>
    p.conversation_id == cid && p.user_id == uid

/-- Policy "Users can view their conversations". -/
def conversationsSelectPolicy (db : Store) (caller : Nat) (c : Conversation) : Bool :=
  isParticipant db c.id caller

/-- Policy "Users can create conversations": `auth.uid() = created_by`. -/
def conversationsInsertPolicy (caller : Nat) (c : Conversation) : Bool :=
  caller == c.created_by

/-- Policy "Users can view participants in their conversations". -/
def participantsSelectPolicy (db : Store) (caller : Nat)
    (p : ConversationParticipant) : Bool :=
  isParticipant db p.conversation_id caller

/-- Policy "Conversation creators can add participants". -/
def participantsInsertPolicy (db : Store) (caller : Nat)
    (row : ConversationParticipant) : Bool :=
  db.conversations.any fun c =>
    c.id == row.conversation_id && c.created_by == caller

/-- Policy "Users can view messages in their conversations". -/
def messagesSelectPolicy (db : Store) (caller : Nat) (m : Message) : Bool :=
  isParticipant db m.conversation_id caller

/-- Policy "Users can send messages to their conversations":
`auth.uid() = sender_id AND EXISTS (…participant…)`. -/
def messagesInsertPolicy (db : Store) (caller : Nat) (m : Message) : Bool :=
  caller == m.sender_id && isParticipant db m.conversation_id caller

/-- Policy "Users can add own contacts": `auth.uid() = user_id`. -/
def contactsInsertPolicy (caller : Nat) (row : Contact) : Bool :=
  caller == row.user_id

/-- A `SELECT` on `conversations` as caller `caller`: RLS keeps the rows
satisfying the select policy. -/
def selectConversations (db : Store) (caller : Nat) : List Conversation :=
  db.conversations.filter (conversationsSelectPolicy db caller)

/-- A `SELECT` on `conversation_participants` as caller `caller`. -/
def selectParticipants (db : Store) (caller : Nat) : List ConversationParticipant :=
  db.conversation_participants.filter (participantsSelectPolicy db caller)

/-- A `SELECT` on `messages` as caller `caller`. -/
def selectMessages (db : Store) (caller : Nat) : List Message :=
  db.messages.filter (messagesSelectPolicy db caller)

/-- An `INSERT` of one row into `messages`: appended when the insert policy
accepts it, otherwise the statement fails and the table is unchanged. -/
def insertMessage (db : Store) (caller : Nat) (m : Message) : Store :=
  if messagesInsertPolicy db caller m then
    { db with messages := db.messages ++ [m] }
  else db

/-- An `INSERT` of one row into `contacts`: the insert policy plus the
schema's `CHECK (user_id != contact_id)` and `UNIQUE(user_id, contact_id)`
constraints must hold, otherwise the table is unchanged. -/
def insertContact (db : Store) (caller : Nat) (row : Contact) : Store :=
  if contactsInsertPolicy caller row
      && row.user_id != row.contact_id
      && db.contacts.all (fun c =>
          !(c.user_id == row.user_id && c.contact_id == row.contact_id)) then
    { db with contacts := db.contacts ++ [row] }
  else db

/-- Two participant rows collide on the `UNIQUE(conversation_id, user_id)`
constraint. -/
def partKeyClash (a b : ConversationParticipant) : Bool :=
  a.conversation_id == b.conversation_id && a.user_id == b.user_id

/-- No two rows of the batch collide on `UNIQUE(conversation_id, user_id)`. -/
def noDupPartKeys : List ConversationParticipant → Bool
  | [] => true
  | r :: rs => rs.all (fun s => !partKeyClash r s) && noDupPartKeys rs

/-- A multi-row `INSERT` into `conversation_participants`: the statement is
atomic, so it appends all rows when every row passes the insert policy and
no uniqueness constraint is violated, and otherwise changes nothing. -/
def insertParticipantRows (db : Store) (caller : Nat)
    (rows : List ConversationParticipant) : Store :=
  if rows.all (participantsInsertPolicy db caller)
      && noDupPartKeys rows
      && rows.all (fun r =>
          db.conversation_participants.all (fun s => !partKeyClash r s)) then
    { db with conversation_participants := db.conversation_participants ++ rows }
  else db

/-- `handleAddContact` (ContactsModal): the caller inserts the row
(caller → target) and then the row (target → caller); each insert is checked
by the store's contacts insert policy.  The primary key and `created_at`
come from column defaults; the model receives the timestamp as `t` and uses
`0` for the generated primary key, which no behaviour reads. -/
def handleAddContact (db : Store) (caller targetId t : Nat) : Store :=
  let db1 := insertContact db caller
    { id := 0, user_id := caller, contact_id := targetId, created_at := t }
  insertContact db1 caller
    { id := 0, user_id := targetId, contact_id := caller, created_at := t }

/-- JavaScript `String.prototype.trim()`: strip leading and trailing
whitespace, modelled on the string's character list. -/
def jsTrim (s : String) : String :=
  ⟨((s.data.dropWhile Char.isWhitespace).reverse.dropWhile Char.isWhitespace).reverse⟩

/-- Insertion of `x` into a list sorted descending by `key`. -/
def insertByKeyDesc (key : α → Nat) (x : α) : List α → List α
  | [] => [x]
  | y :: ys => if key y ≤ key x then x :: y :: ys else y :: insertByKeyDesc key x ys

/-- Sort a list descending by `key`; models both the server-side
`order('created_at', descending)` and the client-side
`sort((a, b) => bTime - aTime)`. -/
def sortByKeyDesc (key : α → Nat) : List α → List α
  | [] => []
  | x :: xs => insertByKeyDesc key x (sortByKeyDesc key xs)

/-- The unread filter of `loadConversations`:
`!p.last_read_at || new Date(m.created_at) > new Date(p.last_read_at)`. -/
def lastReadFilter (lastRead : Option Nat) (m : Message) : Bool :=
  match lastRead with
  | none => true
  | some t => t < m.created_at

/-- A participant row joined with its profile, as shaped by
`loadConversations`. -/
structure ParticipantWithProfile where
  id : Nat
  conversation_id : Nat
  user_id : Nat
  joined_at : Nat
  last_read_at : Option Nat
  profile : Option Profile
deriving DecidableEq

/-- The `ConversationWithDetails` record built by `loadConversations`:
the conversation row spread together with participants, last message and
unread count. -/
structure ConversationWithDetails where
  id : Nat
  type : String
  name : Option String
  created_by : Nat
  created_at : Nat
  updated_at : Nat
  participants : List ParticipantWithProfile
  last_message : Option Message
  unread_count : Nat
deriving DecidableEq

/-- The body of `participantData.map` in `loadConversations`: builds the
details record for one of the caller's participant rows.  The foreign-key
join to `conversations` is modelled by `find?`; a row whose conversation is
missing (impossible under the schema's foreign key) produces no entry. -/
def buildDetails (db : Store) (allParticipants : List ConversationParticipant)
    (lastMessages : List Message) (p : ConversationParticipant) :
    Option ConversationWithDetails :=
  match db.conversations.find? (fun c => c.id == p.conversation_id) with
  | none => none
  | some conv =>
    let participants := allParticipants.filter (fun ap => ap.conversation_id == conv.id)
    let lastMessage := lastMessages.find? (fun m => m.conversation_id == conv.id)
    let unreadMessages := lastMessages.filter (fun m =>
      m.conversation_id == conv.id && lastReadFilter p.last_read_at m)
    some
      { id := conv.id, type := conv.type, name := conv.name,
        created_by := conv.created_by, created_at := conv.created_at,
        updated_at := conv.updated_at,
        participants := participants.map (fun ap =>
          { id := ap.id, conversation_id := ap.conversation_id,
            user_id := ap.user_id, joined_at := ap.joined_at,
            last_read_at := ap.last_read_at,
            profile := db.profiles.find? (fun pr => pr.id == ap.user_id) }),
        last_message := lastMessage,
        unread_count := unreadMessages.length }

/-- Sort key of the final `sort` in `loadConversations`:
`a.last_message?.created_at || a.created_at`. -/
def detailsSortKey (e : ConversationWithDetails) : Nat :=
  match e.last_message with
  | some m => m.created_at
  | none => e.created_at

/-- The `participantData` query of `loadConversations`: the caller's rows
of `conversation_participants`. -/
def participantDataOf (db : Store) (uid : Nat) : List ConversationParticipant :=
  db.conversation_participants.filter (fun p => p.user_id == uid)

/-- The `conversationIds` array of `loadConversations`. -/
def conversationIdsOf (db : Store) (uid : Nat) : List Nat :=
  (participantDataOf db uid).map (fun p => p.conversation_id)

/-- The `allParticipants` query of `loadConversations`: every participant
row of the caller's conversations. -/
def allParticipantsOf (db : Store) (uid : Nat) : List ConversationParticipant :=
  db.conversation_participants.filter
    (fun ap => (conversationIdsOf db uid).contains ap.conversation_id)

/-- The `lastMessages` query of `loadConversations`: every message of the
caller's conversations, ordered by `created_at` descending. -/
def lastMessagesOf (db : Store) (uid : Nat) : List Message :=
  sortByKeyDesc (fun m => m.created_at)
    (db.messages.filter (fun m => (conversationIdsOf db uid).contains m.conversation_id))

/-- `loadConversations` (ChatInterface): fetch the caller's participant
rows, all participants and all messages of those conversations (messages
ordered newest first), build a details record per conversation, and sort
descending by last-message-or-creation time. -/
def loadConversations (db : Store) (uid : Nat) : List ConversationWithDetails :=
  sortByKeyDesc detailsSortKey
    ((participantDataOf db uid).filterMap
      (buildDetails db (allParticipantsOf db uid) (lastMessagesOf db uid)))

/-- A participant row inserted by the new-chat composer: the primary key
and `last_read_at` are column defaults (`0` stands for the generated key,
which no behaviour reads), `joined_at` defaults to the current time `t`. -/
def mkParticipantRow (cid uid t : Nat) : ConversationParticipant :=
  { id := 0, conversation_id := cid, user_id := uid, joined_at := t,
    last_read_at := none }

/-- One iteration of the `for (const conv of existingConv)` loop of
`handleCreatePrivateChat`: `p` is one of the caller's participant rows;
returns the conversation id when it is a private conversation with exactly
two participant rows, one of which is the chosen contact. -/
def checkPrivateMatch (db : Store) (contactId : Nat)
    (p : ConversationParticipant) : Option Nat :=
  match db.conversations.find? (fun c => c.id == p.conversation_id) with
  | none => none
  | some conv =>
    if conv.type == "private" then
      let parts := db.conversation_participants.filter
        (fun q => q.conversation_id == p.conversation_id)
      if parts.length == 2 && parts.any (fun q => q.user_id == contactId) then
        some p.conversation_id
      else none
    else none

/-- The search loop of `handleCreatePrivateChat`: first existing private
conversation of the caller whose two participants include the contact. -/
def findExistingPrivate (db : Store) (uid contactId : Nat) : Option Nat :=
  (db.conversation_participants.filter (fun p => p.user_id == uid)).findSome?
    (checkPrivateMatch db contactId)

/-- `handleCreatePrivateChat` (NewChatModal): reuse an existing two-person
private conversation with the contact when one exists; otherwise insert a
new `private` conversation (fresh id `newCid`, timestamp `t`) and a
two-row participant batch for the caller and the contact.  Returns the
store and the conversation id passed to `onConversationCreated` (none when
the conversation insert fails and the error is caught). -/
def handleCreatePrivateChat (db : Store) (uid contactId newCid t : Nat) :
    Store × Option Nat :=
  match findExistingPrivate db uid contactId with
  | some cid => (db, some cid)
  | none =>
    let newConv : Conversation :=
      { id := newCid, type := "private", name := none, created_by := uid,
        created_at := t, updated_at := t }
    if conversationsInsertPolicy uid newConv
        && db.conversations.all (fun c => c.id != newCid) then
      let db1 := { db with conversations := db.conversations ++ [newConv] }
      let rows := [mkParticipantRow newCid uid t, mkParticipantRow newCid contactId t]
      (insertParticipantRows db1 uid rows, some newCid)
    else (db, none)

/-- `handleCreateGroupChat` (NewChatModal): no-op unless contacts are
selected and the trimmed group name is non-empty; otherwise insert a new
`group` conversation and a participant batch of the caller followed by the
selected contacts. -/
def handleCreateGroupChat (db : Store) (uid : Nat) (selectedContacts : List Nat)
    (groupName : String) (newCid t : Nat) : Store × Option Nat :=
  if selectedContacts.length == 0 || jsTrim groupName == "" then (db, none)
  else
    let newConv : Conversation :=
      { id := newCid, type := "group", name := some (jsTrim groupName),
        created_by := uid, created_at := t, updated_at := t }
    if conversationsInsertPolicy uid newConv
        && db.conversations.all (fun c => c.id != newCid) then
      let db1 := { db with conversations := db.conversations ++ [newConv] }
      let rows := mkParticipantRow newCid uid t ::
        selectedContacts.map (fun cId => mkParticipantRow newCid cId t)
      (insertParticipantRows db1 uid rows, some newCid)
    else (db, none)

/-- The component state of ChatWindow that `handleSendMessage` touches. -/
structure ChatWindowState where
  newMessage : String
  sending : Bool
deriving DecidableEq

/-- `handleSendMessage` (ChatWindow): return early when the trimmed compose
box is empty or a send is in flight; otherwise run the insert inside
`try`/`catch`/`finally`.  `insertThrows` models the awaited insert call
raising an exception: the `catch` branch only logs, and `finally` clears
`sending`; on a non-throwing insert the compose box is cleared.  The insert
itself goes through the messages insert policy. -/
def handleSendMessage (db : Store) (st : ChatWindowState)
    (conversationId senderId msgId t : Nat) (insertThrows : Bool) :
    Store × ChatWindowState :=
  if jsTrim st.newMessage == "" || st.sending then (db, st)
  else if insertThrows then (db, { st with sending := false })
  else
    (insertMessage db senderId
        { id := msgId, conversation_id := conversationId, sender_id := senderId,
          content := jsTrim st.newMessage, created_at := t, updated_at := t },
      { newMessage := "", sending := false })

/-- Follows the spec's words for the unread count: the number of messages
of the conversation with `created_at` strictly later than `last_read_at`,
or all of its messages when `last_read_at` is null. -/
def specUnreadCount (db : Store) (cid : Nat) (lastRead : Option Nat) : Nat :=
  match lastRead with
  | none => (db.messages.filter (fun m => m.conversation_id == cid)).length
  | some t =>
    (db.messages.filter (fun m => m.conversation_id == cid && t < m.created_at)).length

/-- Declarative reading of `checkPrivateMatch` succeeding at participant
row `p`: the row's conversation is private, has exactly two participant
rows, and one of them is the chosen contact. -/
def privateMatchAt (db : Store) (contactId : Nat)
    (p : ConversationParticipant) : Prop :=
  (∃ c ∈ db.conversations, c.id = p.conversation_id ∧ c.type = "private") ∧
  (db.conversation_participants.filter
      (fun q => q.conversation_id == p.conversation_id)).length = 2 ∧
  ∃ q ∈ db.conversation_participants,
    q.conversation_id = p.conversation_id ∧ q.user_id = contactId

instance (db : Store) (contactId : Nat) (p : ConversationParticipant) :
    Decidable (privateMatchAt db contactId p) := by
  unfold privateMatchAt; infer_instance

/-- The caller already participates in a two-person private conversation
with the chosen contact. -/
def existsPrivateWith (db : Store) (uid contactId : Nat) : Prop :=
  ∃ p ∈ db.conversation_participants,
    p.user_id = uid ∧ privateMatchAt db contactId p

instance (db : Store) (uid contactId : Nat) :
    Decidable (existsPrivateWith db uid contactId) := by
  unfold existsPrivateWith; infer_instance

theorem perm_insertByKeyDesc (key : α → Nat) (x : α) (l : List α) :
    (insertByKeyDesc key x l).Perm (x :: l) := by
  induction l with
  | nil => simp [insertByKeyDesc]
  | cons y ys ih =>
    rw [insertByKeyDesc]
    by_cases h : key y ≤ key x
    · rw [if_pos h]
    · rw [if_neg h]
      exact (ih.cons y).trans (List.Perm.swap x y ys)

theorem perm_sortByKeyDesc (key : α → Nat) (l : List α) :
    (sortByKeyDesc key l).Perm l := by
  induction l with
  | nil => rfl
  | cons x xs ih =>
    rw [sortByKeyDesc]
    exact (perm_insertByKeyDesc key x _).trans (ih.cons x)

theorem mem_insertByKeyDesc {key : α → Nat} {x z : α} {l : List α} :
    z ∈ insertByKeyDesc key x l ↔ z = x ∨ z ∈ l := by
  rw [(perm_insertByKeyDesc key x l).mem_iff, List.mem_cons]

theorem pairwise_insertByKeyDesc (key : α → Nat) (x : α) {l : List α}
    (h : l.Pairwise (fun a b => key b ≤ key a)) :
    (insertByKeyDesc key x l).Pairwise (fun a b => key b ≤ key a) := by
  induction l with
  | nil => simp [insertByKeyDesc]
  | cons y ys ih =>
    rcases List.pairwise_cons.mp h with ⟨hy, hys⟩
    rw [insertByKeyDesc]
    by_cases hc : key y ≤ key x
    · rw [if_pos hc]
      refine List.pairwise_cons.mpr ⟨?_, h⟩
      intro z hz
      rcases List.mem_cons.mp hz with rfl | hz
      · exact hc
      · exact (hy z hz).trans hc
    · rw [if_neg hc]
      refine List.pairwise_cons.mpr ⟨?_, ih hys⟩
      intro z hz
      rcases mem_insertByKeyDesc.mp hz with rfl | hz
      · exact Nat.le_of_lt (Nat.lt_of_not_le hc)
      · exact hy z hz

theorem pairwise_sortByKeyDesc (key : α → Nat) (l : List α) :
    (sortByKeyDesc key l).Pairwise (fun a b => key b ≤ key a) := by
  induction l with
  | nil => exact List.Pairwise.nil
  | cons x xs ih =>
    rw [sortByKeyDesc]
    exact pairwise_insertByKeyDesc key x ih

/-- Claim C1: an insert into `messages` is permitted exactly when the row's
`sender_id` is the caller and the caller has a participant row for the
row's conversation; when either conjunct fails the statement is rejected
and the `messages` table is unchanged. -/
theorem messages_insert_policy_iff (db : Store) (caller : Nat) (m : Message) :
    (insertMessage db caller m = { db with messages := db.messages ++ [m] }
        ↔ m.sender_id = caller ∧ ∃ p ∈ db.conversation_participants,
            p.conversation_id = m.conversation_id ∧ p.user_id = caller)
    ∧ (¬ (m.sender_id = caller ∧ ∃ p ∈ db.conversation_participants,
            p.conversation_id = m.conversation_id ∧ p.user_id = caller)
        → insertMessage db caller m = db) := by
  have hpol : messagesInsertPolicy db caller m = true ↔
      (m.sender_id = caller ∧ ∃ p ∈ db.conversation_participants,
        p.conversation_id = m.conversation_id ∧ p.user_id = caller) := by
    simp only [messagesInsertPolicy, isParticipant, Bool.and_eq_true, beq_iff_eq,
      List.any_eq_true]
    exact ⟨fun ⟨h1, h2⟩ => ⟨h1.symm, h2⟩, fun ⟨h1, h2⟩ => ⟨h1.symm, h2⟩⟩
  by_cases h : messagesInsertPolicy db caller m = true
  · refine ⟨⟨fun _ => hpol.mp h, fun _ => ?_⟩, fun hn => absurd (hpol.mp h) hn⟩
    rw [insertMessage, if_pos h]
  · have heq : insertMessage db caller m = db := by rw [insertMessage, if_neg h]
    refine ⟨⟨fun hins => ?_, fun hr => absurd (hpol.mpr hr) h⟩, fun _ => heq⟩
    exfalso
    rw [heq] at hins
    have hlen := congrArg (fun s => s.messages.length) hins
    simp only [List.length_append, List.length_cons, List.length_nil] at hlen
    omega

def dbC1 : Store :=
  { emptyStore with conversation_participants := [⟨1, 1, 5, 0, none⟩] }

theorem messages_insert_policy_iff_witness :
    insertMessage dbC1 5 ⟨1, 2, 5, "", 0, 0⟩ = dbC1 :=
  (messages_insert_policy_iff dbC1 5 ⟨1, 2, 5, "", 0, 0⟩).2 (by decide)

/-- Claim C2: a caller with no participant row for conversation `cid`
receives zero rows for the conversation row, its participant rows, and its
messages, under the respective select policies. -/
theorem nonparticipant_reads_nothing (db : Store) (uid cid : Nat)
    (h : ∀ p ∈ db.conversation_participants,
        ¬ (p.conversation_id = cid ∧ p.user_id = uid)) :
    (selectConversations db uid).filter (fun c => c.id == cid) = [] ∧
    (selectParticipants db uid).filter (fun p => p.conversation_id == cid) = [] ∧
    (selectMessages db uid).filter (fun m => m.conversation_id == cid) = [] := by
  have hnp : ∀ b, isParticipant db cid uid = b → b = false := by
    intro b hb
    cases b with
    | false => rfl
    | true =>
      exfalso
      rw [isParticipant, List.any_eq_true] at hb
      rcases hb with ⟨p, hp, hcond⟩
      rw [Bool.and_eq_true, beq_iff_eq, beq_iff_eq] at hcond
      exact h p hp hcond
  have hnp' : isParticipant db cid uid = false := hnp _ rfl
  refine ⟨?_, ?_, ?_⟩
  · rw [List.filter_eq_nil_iff]
    intro c hc hcid
    rcases List.mem_filter.mp hc with ⟨-, hpol⟩
    rw [beq_iff_eq] at hcid
    rw [conversationsSelectPolicy, hcid, hnp'] at hpol
    cases hpol
  · rw [List.filter_eq_nil_iff]
    intro p hp hcid
    rcases List.mem_filter.mp hp with ⟨-, hpol⟩
    rw [beq_iff_eq] at hcid
    rw [participantsSelectPolicy, hcid, hnp'] at hpol
    cases hpol
  · rw [List.filter_eq_nil_iff]
    intro m hm hcid
    rcases List.mem_filter.mp hm with ⟨-, hpol⟩
    rw [beq_iff_eq] at hcid
    rw [messagesSelectPolicy, hcid, hnp'] at hpol
    cases hpol

def dbC2 : Store :=
  { emptyStore with
    conversations := [⟨1, "private", none, 10, 0, 0⟩],
    conversation_participants := [⟨1, 1, 10, 0, none⟩],
    messages := [⟨1, 1, 10, "", 2, 2⟩] }

theorem nonparticipant_reads_nothing_witness :
    (selectConversations dbC2 99).filter (fun c => c.id == 1) = [] ∧
    (selectParticipants dbC2 99).filter (fun p => p.conversation_id == 1) = [] ∧
    (selectMessages dbC2 99).filter (fun m => m.conversation_id == 1) = [] :=
  nonparticipant_reads_nothing dbC2 99 1 (by decide)

/-- Claim C5: the list produced by `loadConversations` is sorted in
descending order of the key "created_at of the last message when one
exists, else the conversation's own created_at". -/
theorem loadConversations_sorted (db : Store) (uid : Nat) :
    (loadConversations db uid).Pairwise
      (fun a b => detailsSortKey b ≤ detailsSortKey a) := by
  rw [loadConversations]
  exact pairwise_sortByKeyDesc detailsSortKey _

/-- Claim C7: when the awaited message insert throws, the compose-box state
`newMessage` is unchanged by `handleSendMessage`. -/
theorem handleSendMessage_throw_keeps_compose (db : Store) (st : ChatWindowState)
    (conversationId senderId msgId t : Nat) :
    (handleSendMessage db st conversationId senderId msgId t true).2.newMessage
      = st.newMessage := by
  rw [handleSendMessage]
  by_cases h : (jsTrim st.newMessage == "" || st.sending) = true
  · rw [if_pos h]
  · rw [if_neg h, if_pos rfl]

/-- Claim C10: `handleSendMessage` inserts nothing when the trimmed compose
box is empty or a send is in flight, and any message it does insert has the
trimmed, non-empty compose-box text as content. -/
theorem handleSendMessage_trims (db : Store) (st : ChatWindowState)
    (conversationId senderId msgId t : Nat) (insertThrows : Bool) :
    ((jsTrim st.newMessage = "" ∨ st.sending = true) →
      (handleSendMessage db st conversationId senderId msgId t insertThrows).1 = db) ∧
    (∀ m ∈ (handleSendMessage db st conversationId senderId msgId t insertThrows).1.messages,
      m ∉ db.messages → m.content = jsTrim st.newMessage ∧ m.content ≠ "") := by
  by_cases h : (jsTrim st.newMessage == "" || st.sending) = true
  · have hs : handleSendMessage db st conversationId senderId msgId t insertThrows
        = (db, st) := by
      rw [handleSendMessage, if_pos h]
    rw [hs]
    exact ⟨fun _ => rfl, fun m hm hnm => absurd hm hnm⟩
  · have hguard := h
    rw [Bool.or_eq_true, beq_iff_eq, not_or] at hguard
    rcases hguard with ⟨htrim, hsend⟩
    refine ⟨fun hcase => ?_, ?_⟩
    · rcases hcase with hc | hc
      · exact absurd hc htrim
      · rw [hc] at hsend; exact absurd rfl hsend
    · intro m hm hnm
      rw [handleSendMessage, if_neg h] at hm
      cases insertThrows with
      | true => exact absurd hm hnm
      | false =>
        simp only [Bool.false_eq_true, if_false] at hm
        rw [insertMessage] at hm
        by_cases hpol : messagesInsertPolicy db senderId
            { id := msgId, conversation_id := conversationId, sender_id := senderId,
              content := jsTrim st.newMessage, created_at := t, updated_at := t } = true
        · rw [if_pos hpol] at hm
          rcases List.mem_append.mp hm with hmem | hmem
          · exact absurd hmem hnm
          · rcases List.mem_singleton.mp hmem with rfl
            exact ⟨rfl, htrim⟩
        · rw [if_neg hpol] at hm
          exact absurd hm hnm

theorem handleSendMessage_trims_witness :
    (handleSendMessage emptyStore ⟨"", false⟩ 1 2 3 4 false).1 = emptyStore :=
  (handleSendMessage_trims emptyStore ⟨"", false⟩ 1 2 3 4 false).1 (Or.inl (by decide))

theorem buildDetails_some {db : Store} {aps : List ConversationParticipant}
    {lms : List Message} {p : ConversationParticipant} {e : ConversationWithDetails}
    (h : buildDetails db aps lms p = some e) :
    e.id = p.conversation_id ∧
    e.last_message = lms.find? (fun m => m.conversation_id == e.id) ∧
    e.unread_count = (lms.filter (fun m =>
      m.conversation_id == e.id && lastReadFilter p.last_read_at m)).length := by
  rw [buildDetails] at h
  cases hf : db.conversations.find? (fun c => c.id == p.conversation_id) with
  | none => rw [hf] at h; cases h
  | some conv =>
    rw [hf] at h
    have hid : conv.id = p.conversation_id := by
      have := List.find?_some hf
      rwa [beq_iff_eq] at this
    injection h with h
    subst h
    exact ⟨hid, rfl, rfl⟩

theorem mem_unsorted_of_mem_loadConversations {db : Store} {uid : Nat}
    {e : ConversationWithDetails} (he : e ∈ loadConversations db uid) :
    ∃ p ∈ db.conversation_participants, p.user_id = uid ∧
      buildDetails db (allParticipantsOf db uid) (lastMessagesOf db uid) p = some e := by
  rw [loadConversations] at he
  have he' := (perm_sortByKeyDesc detailsSortKey _).mem_iff.mp he
  rcases List.mem_filterMap.mp he' with ⟨p, hp, hbuild⟩
  rcases List.mem_filter.mp hp with ⟨hpm, hpu⟩
  rw [beq_iff_eq] at hpu
  exact ⟨p, hpm, hpu, hbuild⟩

theorem mem_messages_of_mem_lastMessagesOf {db : Store} {uid : Nat} {m : Message}
    (hm : m ∈ lastMessagesOf db uid) : m ∈ db.messages := by
  rw [lastMessagesOf] at hm
  have hm' := (perm_sortByKeyDesc (fun m : Message => m.created_at) _).mem_iff.mp hm
  exact (List.mem_filter.mp hm').1

/-- Claim C3: for an entry of `loadConversations` for caller `uid`, the
computed `unread_count` equals the number of the conversation's messages
with `created_at` strictly later than the caller's `last_read_at`, all of
them when `last_read_at` is null.  The hypothesis `hwf` is the schema's
`UNIQUE(conversation_id, user_id)` constraint. -/
theorem loadConversations_unread (db : Store) (uid : Nat)
    (hwf : db.conversation_participants.Pairwise
      (fun a b => ¬ (a.conversation_id = b.conversation_id ∧ a.user_id = b.user_id)))
    (e : ConversationWithDetails) (he : e ∈ loadConversations db uid)
    (p : ConversationParticipant) (hp : p ∈ db.conversation_participants)
    (hpu : p.user_id = uid) (hpc : p.conversation_id = e.id) :
    e.unread_count = specUnreadCount db e.id p.last_read_at := by
  rcases mem_unsorted_of_mem_loadConversations he with ⟨p', hp'm, hp'u, hbuild⟩
  rcases buildDetails_some hbuild with ⟨hid, -, hcount⟩
  have hpp : p' = p := by
    by_contra hne
    have hsym : Symmetric (fun a b : ConversationParticipant =>
        ¬ (a.conversation_id = b.conversation_id ∧ a.user_id = b.user_id)) := by
      intro a b hab hba
      exact hab ⟨hba.1.symm, hba.2.symm⟩
    exact hwf.forall hsym hp'm hp hne ⟨hid.symm.trans hpc.symm, hp'u.trans hpu.symm⟩
  subst hpp
  rw [hcount]
  have hperm : (lastMessagesOf db uid).Perm
      (db.messages.filter (fun m => (conversationIdsOf db uid).contains m.conversation_id)) :=
    perm_sortByKeyDesc _ _
  rw [(hperm.filter _).length_eq, List.filter_filter]
  have hcidmem : e.id ∈ conversationIdsOf db uid := by
    rw [conversationIdsOf, List.mem_map]
    refine ⟨p', List.mem_filter.mpr ⟨hp'm, beq_iff_eq.mpr hp'u⟩, hpc⟩
  have hcongr : ∀ m ∈ db.messages,
      ((m.conversation_id == e.id && lastReadFilter p'.last_read_at m) &&
        (conversationIdsOf db uid).contains m.conversation_id)
      = (m.conversation_id == e.id && lastReadFilter p'.last_read_at m) := by
    intro m _
    by_cases hm : m.conversation_id = e.id
    · have hc : (conversationIdsOf db uid).contains m.conversation_id = true := by
        rw [hm]
        exact List.elem_eq_true_of_mem hcidmem
      rw [hc, Bool.and_true]
    · have hcf : (m.conversation_id == e.id) = false := beq_eq_false_iff_ne.mpr hm
      rw [hcf, Bool.false_and, Bool.false_and]
  rw [List.filter_congr hcongr]
  cases hlr : p'.last_read_at with
  | none => rw [specUnreadCount]; simp only [lastReadFilter, Bool.and_true]
  | some tr =>
    rw [specUnreadCount]
    simp only [lastReadFilter]

def dbC3 : Store :=
  { profiles := [], contacts := [],
    conversations := [⟨1, "private", none, 10, 0, 0⟩],
    conversation_participants := [⟨1, 1, 10, 0, some 5⟩],
    messages := [⟨1, 1, 10, "", 7, 7⟩, ⟨2, 1, 10, "", 3, 3⟩] }

def entryC3 : ConversationWithDetails :=
  { id := 1, type := "private", name := none, created_by := 10,
    created_at := 0, updated_at := 0,
    participants := [⟨1, 1, 10, 0, some 5, none⟩],
    last_message := some ⟨1, 1, 10, "", 7, 7⟩,
    unread_count := 1 }

theorem loadConversations_unread_witness :
    entryC3.unread_count = specUnreadCount dbC3 entryC3.id (some 5) :=
  loadConversations_unread dbC3 10 (by decide) entryC3 (by decide)
    ⟨1, 1, 10, 0, some 5⟩ (by decide) (by decide) (by decide)

/-- Claim C6: an entry of `loadConversations` whose conversation has zero
messages has no `last_message` and an `unread_count` of `0`. -/
theorem loadConversations_no_messages (db : Store) (uid : Nat)
    (e : ConversationWithDetails) (he : e ∈ loadConversations db uid)
    (hnone : ∀ m ∈ db.messages, m.conversation_id ≠ e.id) :
    e.last_message = none ∧ e.unread_count = 0 := by
  rcases mem_unsorted_of_mem_loadConversations he with ⟨p, -, -, hbuild⟩
  rcases buildDetails_some hbuild with ⟨-, hlast, hcount⟩
  constructor
  · rw [hlast, List.find?_eq_none]
    intro m hm hceq
    rw [beq_iff_eq] at hceq
    exact hnone m (mem_messages_of_mem_lastMessagesOf hm) hceq
  · rw [hcount, List.length_eq_zero, List.filter_eq_nil_iff]
    intro m hm hpred
    rw [Bool.and_eq_true, beq_iff_eq] at hpred
    exact hnone m (mem_messages_of_mem_lastMessagesOf hm) hpred.1

def dbC6 : Store :=
  { profiles := [], contacts := [],
    conversations := [⟨1, "private", none, 10, 4, 4⟩],
    conversation_participants := [⟨1, 1, 10, 0, none⟩],
    messages := [] }

def entryC6 : ConversationWithDetails :=
  { id := 1, type := "private", name := none, created_by := 10,
    created_at := 4, updated_at := 4,
    participants := [⟨1, 1, 10, 0, none, none⟩],
    last_message := none,
    unread_count := 0 }

theorem loadConversations_no_messages_witness :
    entryC6.last_message = none ∧ entryC6.unread_count = 0 :=
  loadConversations_no_messages dbC6 10 entryC6 (by decide) (by decide)

theorem checkPrivateMatch_some {db : Store} {contactId : Nat}
    {p : ConversationParticipant} {v : Nat}
    (h : checkPrivateMatch db contactId p = some v) :
    v = p.conversation_id ∧ privateMatchAt db contactId p := by
  rw [checkPrivateMatch] at h
  cases hf : db.conversations.find? (fun c => c.id == p.conversation_id) with
  | none => rw [hf] at h; cases h
  | some conv =>
    rw [hf] at h
    dsimp only at h
    by_cases hty : (conv.type == "private") = true
    · rw [if_pos hty] at h
      by_cases hcond : ((db.conversation_participants.filter
            (fun q => q.conversation_id == p.conversation_id)).length == 2 &&
          (db.conversation_participants.filter
            (fun q => q.conversation_id == p.conversation_id)).any
            (fun q => q.user_id == contactId)) = true
      · rw [if_pos hcond] at h
        injection h with h
        rw [Bool.and_eq_true, beq_iff_eq, List.any_eq_true] at hcond
        rcases hcond with ⟨hlen, q, hq, hqu⟩
        rcases List.mem_filter.mp hq with ⟨hqm, hqc⟩
        rw [beq_iff_eq] at hqc hqu hty
        have hcid : conv.id = p.conversation_id := by
          have := List.find?_some hf
          rwa [beq_iff_eq] at this
        refine ⟨h.symm, ?_, hlen, q, hqm, hqc, hqu⟩
        exact ⟨conv, List.mem_of_find?_eq_some hf, hcid, hty⟩
      · rw [if_neg hcond] at h; cases h
    · rw [if_neg hty] at h; cases h

theorem checkPrivateMatch_of_match {db : Store} {contactId : Nat}
    {p : ConversationParticipant}
    (hwfc : db.conversations.Pairwise (fun a b => a.id ≠ b.id))
    (h : privateMatchAt db contactId p) :
    checkPrivateMatch db contactId p = some p.conversation_id := by
  rcases h with ⟨⟨c, hc, hcid, hcty⟩, hlen, q, hq, hqc, hqu⟩
  have hsome : (db.conversations.find? (fun c' => c'.id == p.conversation_id)).isSome
      = true :=
    List.find?_isSome.mpr ⟨c, hc, beq_iff_eq.mpr hcid⟩
  rcases Option.isSome_iff_exists.mp hsome with ⟨c', hf⟩
  have hc'id : c'.id = p.conversation_id := by
    have := List.find?_some hf
    rwa [beq_iff_eq] at this
  have hc'm : c' ∈ db.conversations := List.mem_of_find?_eq_some hf
  have hcc : c' = c := by
    by_contra hne
    have hsym : Symmetric (fun a b : Conversation => a.id ≠ b.id) := by
      intro a b hab hba
      exact hab hba.symm
    exact hwfc.forall hsym hc'm hc hne (hc'id.trans hcid.symm)
  have hc'ty : (c'.type == "private") = true := by
    rw [hcc]
    exact beq_iff_eq.mpr hcty
  have hcond : ((db.conversation_participants.filter
        (fun q => q.conversation_id == p.conversation_id)).length == 2 &&
      (db.conversation_participants.filter
        (fun q => q.conversation_id == p.conversation_id)).any
        (fun q => q.user_id == contactId)) = true := by
    rw [Bool.and_eq_true, beq_iff_eq, List.any_eq_true]
    exact ⟨hlen, q, List.mem_filter.mpr ⟨hq, beq_iff_eq.mpr hqc⟩, beq_iff_eq.mpr hqu⟩
  rw [checkPrivateMatch, hf]
  dsimp only
  rw [if_pos hc'ty, if_pos hcond]

theorem findExistingPrivate_some {db : Store} {uid contactId v : Nat}
    (h : findExistingPrivate db uid contactId = some v) :
    ∃ p ∈ db.conversation_participants, p.user_id = uid ∧
      privateMatchAt db contactId p ∧ p.conversation_id = v := by
  rcases List.exists_of_findSome?_eq_some h with ⟨p, hp, hcp⟩
  rcases List.mem_filter.mp hp with ⟨hpm, hpu⟩
  rcases checkPrivateMatch_some hcp with ⟨hv, hmatch⟩
  exact ⟨p, hpm, beq_iff_eq.mp hpu, hmatch, hv.symm⟩

theorem findExistingPrivate_eq_none {db : Store} {uid contactId : Nat}
    (hwfc : db.conversations.Pairwise (fun a b => a.id ≠ b.id))
    (h : findExistingPrivate db uid contactId = none) :
    ¬ existsPrivateWith db uid contactId := by
  rintro ⟨p, hp, hpu, hmatch⟩
  rw [findExistingPrivate, List.findSome?_eq_none_iff] at h
  have := h p (List.mem_filter.mpr ⟨hp, beq_iff_eq.mpr hpu⟩)
  rw [checkPrivateMatch_of_match hwfc hmatch] at this
  cases this

theorem noDupPartKeys_map (newCid t : Nat) {others : List Nat}
    (hnd : others.Nodup) :
    noDupPartKeys (others.map (fun b => mkParticipantRow newCid b t)) = true := by
  induction others with
  | nil => rfl
  | cons b bs ih =>
    rcases List.nodup_cons.mp hnd with ⟨hb, hbs⟩
    rw [List.map_cons, noDupPartKeys, Bool.and_eq_true, List.all_eq_true]
    refine ⟨?_, ih hbs⟩
    intro s hs
    rcases List.mem_map.mp hs with ⟨b', hb', rfl⟩
    rw [Bool.not_eq_true', partKeyClash, mkParticipantRow, mkParticipantRow,
      Bool.and_eq_false_iff]
    right
    rw [beq_eq_false_iff_ne]
    show b ≠ b'
    exact fun hbb => hb (hbb ▸ hb')

theorem insertParticipantRows_creator (db : Store) (uid newCid t : Nat)
    (others : List Nat)
    (hfreshP : ∀ p ∈ db.conversation_participants, p.conversation_id ≠ newCid)
    (hcreator : db.conversations.any
      (fun c => c.id == newCid && c.created_by == uid) = true)
    (hothers : uid ∉ others) (hnd : others.Nodup) :
    insertParticipantRows db uid
        (mkParticipantRow newCid uid t :: others.map (fun b => mkParticipantRow newCid b t))
      = { db with conversation_participants := db.conversation_participants ++
          (mkParticipantRow newCid uid t ::
            others.map (fun b => mkParticipantRow newCid b t)) } := by
  have hrowcid : ∀ r ∈ mkParticipantRow newCid uid t ::
      others.map (fun b => mkParticipantRow newCid b t), r.conversation_id = newCid := by
    intro r hr
    rcases List.mem_cons.mp hr with rfl | hr
    · rfl
    · rcases List.mem_map.mp hr with ⟨b, -, rfl⟩
      rfl
  rw [insertParticipantRows, if_pos]
  rw [Bool.and_eq_true, Bool.and_eq_true, List.all_eq_true, List.all_eq_true]
  refine ⟨⟨?_, ?_⟩, ?_⟩
  · intro r hr
    rw [participantsInsertPolicy, hrowcid r hr]
    exact hcreator
  · rw [noDupPartKeys, Bool.and_eq_true, List.all_eq_true]
    refine ⟨?_, noDupPartKeys_map newCid t hnd⟩
    intro s hs
    rcases List.mem_map.mp hs with ⟨b, hb, rfl⟩
    rw [Bool.not_eq_true', partKeyClash, mkParticipantRow, mkParticipantRow,
      Bool.and_eq_false_iff]
    right
    rw [beq_eq_false_iff_ne]
    show uid ≠ b
    exact fun hub => hothers (hub ▸ hb)
  · intro r hr
    rw [List.all_eq_true]
    intro s hs
    rw [Bool.not_eq_true', partKeyClash, Bool.and_eq_false_iff]
    left
    rw [beq_eq_false_iff_ne, hrowcid r hr]
    exact fun hsc => hfreshP s hs hsc.symm

/-- Claim C8: when the caller already participates in a two-participant
private conversation containing the chosen contact, `handleCreatePrivateChat`
leaves the store unchanged and reports such a conversation's id; otherwise
it inserts exactly one new private conversation created by the caller and
participant rows for the caller and the contact. -/
theorem handleCreatePrivateChat_spec (db : Store) (uid contactId newCid t : Nat)
    (hwfc : db.conversations.Pairwise (fun a b => a.id ≠ b.id))
    (hfreshC : ∀ c ∈ db.conversations, c.id ≠ newCid)
    (hfreshP : ∀ p ∈ db.conversation_participants, p.conversation_id ≠ newCid)
    (hne : uid ≠ contactId) :
    (existsPrivateWith db uid contactId →
      (handleCreatePrivateChat db uid contactId newCid t).1 = db ∧
      ∃ p ∈ db.conversation_participants, p.user_id = uid ∧
        privateMatchAt db contactId p ∧
        (handleCreatePrivateChat db uid contactId newCid t).2 = some p.conversation_id) ∧
    (¬ existsPrivateWith db uid contactId →
      (handleCreatePrivateChat db uid contactId newCid t).1.conversations
          = db.conversations ++
            [{ id := newCid, type := "private", name := none, created_by := uid,
               created_at := t, updated_at := t }] ∧
      (handleCreatePrivateChat db uid contactId newCid t).1.conversation_participants
          = db.conversation_participants ++
            [mkParticipantRow newCid uid t, mkParticipantRow newCid contactId t] ∧
      (handleCreatePrivateChat db uid contactId newCid t).2 = some newCid) := by
  cases hfe : findExistingPrivate db uid contactId with
  | some v =>
    have hr : handleCreatePrivateChat db uid contactId newCid t = (db, some v) := by
      rw [handleCreatePrivateChat, hfe]
    rcases findExistingPrivate_some hfe with ⟨p, hpm, hpu, hmatch, hpc⟩
    constructor
    · intro _
      rw [hr]
      exact ⟨rfl, p, hpm, hpu, hmatch, by rw [hpc]⟩
    · intro hn
      exact absurd ⟨p, hpm, hpu, hmatch⟩ hn
  | none =>
    have hnex := findExistingPrivate_eq_none hwfc hfe
    have hguard : (conversationsInsertPolicy uid
        { id := newCid, type := "private", name := none, created_by := uid,
          created_at := t, updated_at := t } &&
        db.conversations.all (fun c => c.id != newCid)) = true := by
      rw [Bool.and_eq_true]
      refine ⟨beq_self_eq_true uid, ?_⟩
      rw [List.all_eq_true]
      intro c hc
      rw [bne_iff_ne]
      exact hfreshC c hc
    have hr : handleCreatePrivateChat db uid contactId newCid t
        = (insertParticipantRows
            { db with conversations := db.conversations ++
                [{ id := newCid, type := "private", name := none, created_by := uid,
                   created_at := t, updated_at := t }] } uid
            [mkParticipantRow newCid uid t, mkParticipantRow newCid contactId t],
          some newCid) := by
      rw [handleCreatePrivateChat, hfe]
      dsimp only
      rw [if_pos hguard]
    have hins := insertParticipantRows_creator
      { db with conversations := db.conversations ++
          [{ id := newCid, type := "private", name := none, created_by := uid,
             created_at := t, updated_at := t }] }
      uid newCid t [contactId] hfreshP
      (by
        rw [List.any_eq_true]
        exact ⟨_, List.mem_append_right _ (List.mem_singleton.mpr rfl), by simp⟩)
      (by simp [hne]) (List.nodup_singleton contactId)
    simp only [List.map_cons, List.map_nil] at hins
    constructor
    · intro hex
      exact absurd hex hnex
    · intro _
      rw [hr]
      dsimp only
      rw [hins]
      exact ⟨rfl, rfl, rfl⟩

def dbC8 : Store := emptyStore

theorem handleCreatePrivateChat_spec_witness :
    (handleCreatePrivateChat dbC8 1 2 7 0).1.conversation_participants
      = dbC8.conversation_participants ++
        [mkParticipantRow 7 1 0, mkParticipantRow 7 2 0] :=
  ((handleCreatePrivateChat_spec dbC8 1 2 7 0 (by decide) (by decide) (by decide)
      (by decide)).2 (by decide)).2.1

/-- Claim C9: a conversation created through the new-chat composer (private
or group path) always gets a participant row for the creating user. -/
theorem composer_creator_participates (db : Store) (uid contactId newCid t : Nat)
    (selectedContacts : List Nat) (groupName : String)
    (hfreshC : ∀ c ∈ db.conversations, c.id ≠ newCid)
    (hfreshP : ∀ p ∈ db.conversation_participants, p.conversation_id ≠ newCid)
    (hne : uid ≠ contactId)
    (hsel : uid ∉ selectedContacts) (hnd : selectedContacts.Nodup) :
    (∀ c ∈ (handleCreatePrivateChat db uid contactId newCid t).1.conversations,
      c ∉ db.conversations →
      ∃ q ∈ (handleCreatePrivateChat db uid contactId newCid t).1.conversation_participants,
        q.conversation_id = c.id ∧ q.user_id = uid) ∧
    (∀ c ∈ (handleCreateGroupChat db uid selectedContacts groupName newCid t).1.conversations,
      c ∉ db.conversations →
      ∃ q ∈ (handleCreateGroupChat db uid selectedContacts groupName
          newCid t).1.conversation_participants,
        q.conversation_id = c.id ∧ q.user_id = uid) := by
  constructor
  · cases hfe : findExistingPrivate db uid contactId with
    | some v =>
      have hr : handleCreatePrivateChat db uid contactId newCid t = (db, some v) := by
        rw [handleCreatePrivateChat, hfe]
      rw [hr]
      intro c hc hnc
      exact absurd hc hnc
    | none =>
      have hguard : (conversationsInsertPolicy uid
          { id := newCid, type := "private", name := none, created_by := uid,
            created_at := t, updated_at := t } &&
          db.conversations.all (fun c => c.id != newCid)) = true := by
        rw [Bool.and_eq_true]
        refine ⟨beq_self_eq_true uid, ?_⟩
        rw [List.all_eq_true]
        intro c hc
        rw [bne_iff_ne]
        exact hfreshC c hc
      have hr : handleCreatePrivateChat db uid contactId newCid t
          = (insertParticipantRows
              { db with conversations := db.conversations ++
                  [{ id := newCid, type := "private", name := none, created_by := uid,
                     created_at := t, updated_at := t }] } uid
              [mkParticipantRow newCid uid t, mkParticipantRow newCid contactId t],
            some newCid) := by
        rw [handleCreatePrivateChat, hfe]
        dsimp only
        rw [if_pos hguard]
      have hins := insertParticipantRows_creator
        { db with conversations := db.conversations ++
            [{ id := newCid, type := "private", name := none, created_by := uid,
               created_at := t, updated_at := t }] }
        uid newCid t [contactId] hfreshP
        (by
          rw [List.any_eq_true]
          exact ⟨_, List.mem_append_right _ (List.mem_singleton.mpr rfl), by simp⟩)
        (by simp [hne]) (List.nodup_singleton contactId)
      simp only [List.map_cons, List.map_nil] at hins
      rw [hr]
      dsimp only
      rw [hins]
      intro c hc hnc
      rcases List.mem_append.mp hc with hc | hc
      · exact absurd hc hnc
      · rcases List.mem_singleton.mp hc with rfl
        refine ⟨mkParticipantRow newCid uid t, ?_, rfl, rfl⟩
        exact List.mem_append_right _ (List.mem_cons_self _ _)
  · by_cases hg : (selectedContacts.length == 0 || jsTrim groupName == "") = true
    · have hr : handleCreateGroupChat db uid selectedContacts groupName newCid t
          = (db, none) := by
        rw [handleCreateGroupChat, if_pos hg]
      rw [hr]
      intro c hc hnc
      exact absurd hc hnc
    · have hguard : (conversationsInsertPolicy uid
          { id := newCid, type := "group", name := some (jsTrim groupName),
            created_by := uid, created_at := t, updated_at := t } &&
          db.conversations.all (fun c => c.id != newCid)) = true := by
        rw [Bool.and_eq_true]
        refine ⟨beq_self_eq_true uid, ?_⟩
        rw [List.all_eq_true]
        intro c hc
        rw [bne_iff_ne]
        exact hfreshC c hc
      have hr : handleCreateGroupChat db uid selectedContacts groupName newCid t
          = (insertParticipantRows
              { db with conversations := db.conversations ++
                  [{ id := newCid, type := "group", name := some (jsTrim groupName),
                     created_by := uid, created_at := t, updated_at := t }] } uid
              (mkParticipantRow newCid uid t ::
                selectedContacts.map (fun cId => mkParticipantRow newCid cId t)),
            some newCid) := by
        rw [handleCreateGroupChat, if_neg hg]
        dsimp only
        rw [if_pos hguard]
      have hins := insertParticipantRows_creator
        { db with conversations := db.conversations ++
            [{ id := newCid, type := "group", name := some (jsTrim groupName),
               created_by := uid, created_at := t, updated_at := t }] }
        uid newCid t selectedContacts hfreshP
        (by
          rw [List.any_eq_true]
          exact ⟨_, List.mem_append_right _ (List.mem_singleton.mpr rfl), by simp⟩)
        hsel hnd
      rw [hr]
      dsimp only
      rw [hins]
      intro c hc hnc
      rcases List.mem_append.mp hc with hc | hc
      · exact absurd hc hnc
      · rcases List.mem_singleton.mp hc with rfl
        refine ⟨mkParticipantRow newCid uid t, ?_, rfl, rfl⟩
        exact List.mem_append_right _ (List.mem_cons_self _ _)

def convC9 : Conversation :=
  { id := 7, type := "group", name := some "g", created_by := 1,
    created_at := 0, updated_at := 0 }

theorem composer_creator_participates_witness :
    ∃ q ∈ (handleCreateGroupChat emptyStore 1 [2, 3] "g" 7 0).1.conversation_participants,
      q.conversation_id = convC9.id ∧ q.user_id = 1 :=
  (composer_creator_participates emptyStore 1 2 7 0 [2, 3] "g" (by decide) (by decide)
      (by decide) (by decide) (by decide)).2 convC9 (by decide) (by decide)

/-- Claim C4 (refuting evaluation): `handleAddContact` by caller `0` for
target `1` creates the row 0→1, but the reciprocal row 1→0 is not created:
its insert has `user_id = 1 ≠ 0 = auth.uid()`, so the contacts insert
policy rejects it and the error is silently swallowed. -/
theorem handleAddContact_not_pair :
    ((handleAddContact emptyStore 0 1 3).contacts.any
        (fun c => c.user_id == 0 && c.contact_id == 1)) = true ∧
    ((handleAddContact emptyStore 0 1 3).contacts.any
        (fun c => c.user_id == 1 && c.contact_id == 0)) = false := by
  decide
